import Mathlib

/-!
Shallow embedding of `go-ipfs-blocklist` (package `blocklist`): the shared
types of `blocklist.go`, the key-value backend `DatastoreBlocklist` of
`datastoreblocklist.go` and the relational backend `PgBlocklist`.

Modelling conventions:
- Machine-level collaborators (go-cid, go-datastore, gorm) are external to the
  repository; they are modelled by their documented interfaces (spec section 6):
  the key-value store offers get/put/delete/has and an ordered, limited range
  query; the relational store offers filtered count, filtered first-match,
  insert, and hard delete.
- `time.Time` values are modelled as natural numbers.  The RFC3339 rendering
  used as an audit key is order-isomorphic to the timestamp it renders, so the
  audit key is modelled by the timestamp itself.
- Store reads are taken to succeed; a store whose writes fail (`Put`, `Create`,
  `Delete` returning an I/O error) is modelled by the `broken` flag of a state.
- Fallible Go code returns `Except Err`; a Go runtime panic (index out of
  range) surfaces as `Err.panicOutOfRange`.
-/

deriving instance DecidableEq for Except

namespace Blocklist

/-- The error values the modelled operations can surface.  `errNotFound` is the
package-level `ErrNotFound` of `blocklist.go` ("blocklist item not found");
`gormNotFound` is gorm's record-not-found error returned by `First`;
`dsNotFound` is go-datastore's not-found error returned by `Get`;
`gormDeleteFailure` is the error gorm v2 returns from `Unscoped().Delete` when
handed a model value it cannot build a delete condition from (no primary key:
blocked global delete / schema error).  These are distinct Go error values. -/
inductive Err where
  | errNotFound
  | gormNotFound
  | dsNotFound
  | gormDeleteFailure
  | storeFailure
  | invalidActionType (typ : String)
  | b58Failure
  | parseFailure
  | panicOutOfRange
  | jsonFailure
deriving DecidableEq

/-- The rendered string form of a CID (`cid.Cid.String()` in go-cid).  A
version-0 CID renders as the base58 multihash, so its render depends only on
the hash; a version-1 CID renders as a multibase encoding of (version, codec,
hash).  The two render classes are disjoint (v0 renders start with "Qm", v1
renders with a multibase tag), and renders are injective, which the
constructors capture.  `garbage` stands for a string that is not a valid CID
render (arbitrary database content handed to `cid.Parse`). -/
inductive CidString where
  | v0 (hash : Nat)
  | v1 (codec : Nat) (hash : Nat)
  | garbage (s : String)
deriving DecidableEq

/-- go-cid `cid.Cid`: a version (0 or 1), a codec, and the underlying
multihash, abstracted to a natural number. -/
structure Cid where
  version : Nat
  codec : Nat
  hash : Nat
deriving DecidableEq

/-- The `cid.DagProtobuf` codec constant. -/
def dagProtobuf : Nat := 0x70

/-- `cid.Cid.String()`. -/
def Cid.string (c : Cid) : CidString :=
  if c.version = 0 then .v0 c.hash else .v1 c.codec c.hash

/-- `cid.NewCidV1(codec, hash)`. -/
def newCidV1 (codec hash : Nat) : Cid :=
  { version := 1, codec := codec, hash := hash }

/-- `mh.FromB58String` applied to a rendered CID string: succeeds exactly on a
version-0 render (which is the base58-encoded multihash), recovering the
hash. -/
def mhFromB58String : CidString → Except Err Nat
  | .v0 hash => .ok hash
  | _ => .error .b58Failure

/-- `cid.Parse` on a rendered string: a v0 render parses to the v0 CID (whose
codec is implicitly DagProtobuf), a v1 render to the v1 CID; anything else
fails. -/
def cidParse : CidString → Except Err Cid
  | .v0 hash => .ok { version := 0, codec := dagProtobuf, hash := hash }
  | .v1 codec hash => .ok { version := 1, codec := codec, hash := hash }
  | .garbage _ => .error .parseFailure

/-- A leaf value of the JSON objects this package marshals: a Go string, a CID
render (`cid.Cid.MarshalJSON`), an RFC3339 time, or an array of such strings
or CID renders.  The structs of `blocklist.go` are flat, so their JSON never
nests objects. -/
inductive JsonAtom where
  | str (s : String)
  | cidstr (s : CidString)
  | time (t : Nat)
  | strArr (xs : List String)
  | cidArr (xs : List Cid)
deriving DecidableEq

/-- Model of a JSON byte string as stored in the key-value backend: an object
mapping field names to leaf values, as produced by `json.Marshal` on the flat
structs of this package, or arbitrary other bytes. -/
inductive Json where
  | obj (fields : List (String × JsonAtom))
  | bytes (s : String)
deriving DecidableEq

/-- `BlocklistItem` of `blocklist.go`.  `Hash` is a Go string holding a CID
render. -/
structure BlocklistItem where
  Hash : CidString
  Content : List String
  Reason : String
  User : String
deriving DecidableEq

/-- `BlockData` of `blocklist.go`. -/
structure BlockData where
  Blocked : List String
  Content : List String
  Reason : String
  User : String
deriving DecidableEq

/-- `Action` of `blocklist.go`.  `CreatedAt` is a timestamp (see the time
convention above). -/
structure Action where
  Typ : String
  Ids : List Cid
  Reason : String
  User : String
  CreatedAt : Nat
deriving DecidableEq

/-- `BlocklistItem.MarshalBinary`: `json.Marshal` of the struct, an object
with one field per struct field. -/
def BlocklistItem.MarshalBinary (b : BlocklistItem) : Json :=
  .obj [("Hash", .cidstr b.Hash), ("Content", .strArr b.Content),
        ("Reason", .str b.Reason), ("User", .str b.User)]

/-- `BlocklistItem.UnmarshalBinary`: `json.Unmarshal`, reading each field of
the struct from the object. -/
def BlocklistItem.UnmarshalBinary : Json → Except Err BlocklistItem
  | .obj fields =>
    match fields.lookup "Hash", fields.lookup "Content",
          fields.lookup "Reason", fields.lookup "User" with
    | some (.cidstr h), some (.strArr cs), some (.str r), some (.str u) =>
      .ok { Hash := h, Content := cs, Reason := r, User := u }
    | _, _, _, _ => .error .jsonFailure
  | _ => .error .jsonFailure

/-- `Action.MarshalBinary`: `json.Marshal` of the struct. -/
def Action.MarshalBinary (a : Action) : Json :=
  .obj [("Typ", .str a.Typ), ("Ids", .cidArr a.Ids),
        ("Reason", .str a.Reason), ("User", .str a.User),
        ("CreatedAt", .time a.CreatedAt)]

/-- `Action.UnmarshalBinary`: `json.Unmarshal`, reading each field of the
struct from the object. -/
def Action.UnmarshalBinary : Json → Except Err Action
  | .obj fields =>
    match fields.lookup "Typ", fields.lookup "Ids", fields.lookup "Reason",
          fields.lookup "User", fields.lookup "CreatedAt" with
    | some (.str t), some (.cidArr is), some (.str r), some (.str u),
      some (.time c) =>
      .ok { Typ := t, Ids := is, Reason := r, User := u, CreatedAt := c }
    | _, _, _, _, _ => .error .jsonFailure
  | _ => .error .jsonFailure

/-- Go slice element assignment `s[i] = x`: panics (`none`) when `i` is not a
valid index of `s` — in particular for every `i` on a slice made with
`make([]T, 0, cap)`, whose length is 0. -/
def setIdx : List α → Nat → α → Option (List α)
  | _ :: rest, 0, v => some (v :: rest)
  | x :: rest, n + 1, v => (setIdx rest n v).map (x :: ·)
  | [], _, _ => none

/-- `strings.Join xs sep`. -/
def goJoin (sep : String) : List String → String
  | [] => ""
  | [x] => x
  | x :: rest => x ++ sep ++ goJoin sep rest

/-- Core of `strings.Split` on a one-character separator, over the character
list of the string.  `strings.Split` never returns an empty list: splitting
the empty string yields `[""]`. -/
def splitChars (sep : Char) : List Char → List String
  | [] => [""]
  | c :: rest =>
    match splitChars sep rest with
    | [] => [""]
    | s :: ss => if c = sep then "" :: s :: ss else String.mk (c :: s.data) :: ss

/-- `strings.Split s sep` for a one-character separator. -/
def goSplit (s : String) (sep : Char) : List String :=
  splitChars sep s.data

/-- The result cap of the audit queries.  go-datastore applies a query's
`Limit` through `NaiveLimit`, for which a limit of 0 means "no limit", and the
gorm release this code builds against likewise emits no LIMIT clause for
`Limit(0)`: a zero limit returns everything, a positive limit caps the
result. -/
def applyLimit (limit : Nat) (l : List α) : List α :=
  if limit = 0 then l else l.take limit

/-- A go-datastore keyed store: an association list of key/value pairs. -/
structure KV (κ V : Type) where
  entries : List (κ × V)
deriving DecidableEq

/-- Insert or replace the binding of `k`. -/
def insertEntry [DecidableEq κ] : List (κ × V) → κ → V → List (κ × V)
  | [], k, v => [(k, v)]
  | p :: rest, k, v =>
    if p.1 = k then (k, v) :: rest else p :: insertEntry rest k v

/-- `Put` result on the underlying entries. -/
def KV.insert [DecidableEq κ] (s : KV κ V) (k : κ) (v : V) : KV κ V :=
  { entries := insertEntry s.entries k v }

/-- `Has`. -/
def KV.has [DecidableEq κ] (s : KV κ V) (k : κ) : Bool :=
  s.entries.any (fun p => p.1 == k)

/-- `Get`. -/
def KV.find? [DecidableEq κ] (s : KV κ V) (k : κ) : Option V :=
  (s.entries.find? (fun p => p.1 == k)).map (·.2)

/-- `Delete` result on the underlying entries (removing an absent key leaves
them unchanged). -/
def KV.erase [DecidableEq κ] (s : KV κ V) (k : κ) : KV κ V :=
  { entries := s.entries.filter (fun p => !(p.1 == k)) }

/-- State of the `DatastoreBlocklist` backend built by `NewDatastoreBlocklist`:
the base datastore (used by `Purge`) plus the two namespaces nested under the
`safemode` key (`safemode/blocklist` for blocklist entries, `safemode/audit`
for audit entries).  The three namespace key spaces are disjoint, so they are
modelled as three stores.  Blocklist keys are `dshelp.CidToDsKey` images,
injective in the CID, modelled by the CID itself; audit keys are
`CreatedAt.Format(time.RFC3339)` strings, whose lexicographic order matches
the order of the timestamps they render, modelled by the timestamp.  `broken`
models an underlying store whose writes fail. -/
structure DsState where
  datastore : KV Cid Json
  auditstore : KV Nat Json
  safemodestore : KV Cid Json
  broken : Bool
deriving DecidableEq

/-- `safemodestore.Put`. -/
def DsState.putSafemode (s : DsState) (k : Cid) (v : Json) :
    DsState × Except Err Unit :=
  if s.broken then (s, .error .storeFailure)
  else ({ s with safemodestore := s.safemodestore.insert k v }, .ok ())

/-- `auditstore.Put`. -/
def DsState.putAudit (s : DsState) (k : Nat) (v : Json) :
    DsState × Except Err Unit :=
  if s.broken then (s, .error .storeFailure)
  else ({ s with auditstore := s.auditstore.insert k v }, .ok ())

/-- `safemodestore.Delete`: go-datastore deletes are idempotent — removing an
absent key is not an error. -/
def DsState.deleteSafemode (s : DsState) (k : Cid) :
    DsState × Except Err Unit :=
  if s.broken then (s, .error .storeFailure)
  else ({ s with safemodestore := s.safemodestore.erase k }, .ok ())

namespace DatastoreBlocklist

/-- `DatastoreBlocklist.cidToKey`: a version-0 CID is reinterpreted as a
version-1 CID with the DagProtobuf codec over the same multihash before the
datastore key (`dshelp.CidToDsKey`, modelled as the CID itself) is derived. -/
def cidToKey (id : Cid) : Except Err Cid :=
  if id.version = 0 then
    match mhFromB58String id.string with
    | .error e => .error e
    | .ok hash => .ok (newCidV1 dagProtobuf hash)
  else .ok id

/-- `DatastoreBlocklist.Contains`.  (The guard returning `ErrNotFound` for the
undefined zero-value `cid.Cid` is not modelled: every `Cid` value of the
embedding represents a defined CID.) -/
def Contains (s : DsState) (id : Cid) : Except Err Bool :=
  match cidToKey id with
  | .error e => .error e
  | .ok k => .ok (s.safemodestore.has k)

/-- `DatastoreBlocklist.Block`.  Note that the `Hash` field of the stored item
is the unnormalized `id.String()`, while the storage key is normalized. -/
def Block (s : DsState) (id : Cid) (data : BlockData) :
    DsState × Except Err Bool :=
  match cidToKey id with
  | .error e => (s, .error e)
  | .ok k =>
    match Contains s id with
    | .error e => (s, .error e)
    | .ok true => (s, .ok false)
    | .ok false =>
      let bi : BlocklistItem :=
        { Hash := id.string, Content := data.Content,
          User := data.User, Reason := data.Reason }
      match s.putSafemode k bi.MarshalBinary with
      | (s', .error e) => (s', .error e)
      | (s', .ok _) => (s', .ok true)

/-- `DatastoreBlocklist.Unblock`: a plain `Delete` of the normalized key. -/
def Unblock (s : DsState) (id : Cid) : DsState × Except Err Unit :=
  match cidToKey id with
  | .error e => (s, .error e)
  | .ok k => s.deleteSafemode k

/-- `DatastoreBlocklist.Search`. -/
def Search (s : DsState) (id : Cid) : Except Err BlocklistItem :=
  match cidToKey id with
  | .error e => .error e
  | .ok k =>
    match s.safemodestore.find? k with
    | none => .error .dsNotFound
    | some v => BlocklistItem.UnmarshalBinary v

/-- Descending key order used by the audit query
(`dsq.OrderByKeyDescending`). -/
def entryGe (a b : Nat × Json) : Prop := b.1 ≤ a.1

instance : DecidableRel entryGe := fun a b =>
  inferInstanceAs (Decidable (b.1 ≤ a.1))

instance : IsTotal (Nat × Json) entryGe :=
  ⟨fun a b => Nat.le_total b.1 a.1⟩

instance : IsTrans (Nat × Json) entryGe :=
  ⟨fun _ _ _ hab hbc => Nat.le_trans hbc hab⟩

/-- The `NextSync` loop of `DatastoreBlocklist.GetLogs`: unmarshal each result
value, stopping at the first failure. -/
def decodeEntries : List (Nat × Json) → Except Err (List Action)
  | [] => .ok []
  | (_, v) :: rest =>
    match Action.UnmarshalBinary v with
    | .error e => .error e
    | .ok a =>
      match decodeEntries rest with
      | .error e => .error e
      | .ok as => .ok (a :: as)

/-- `DatastoreBlocklist.GetLogs`: query the audit namespace in descending key
order with the result cap (`applyLimit`: a zero limit means no limit in
go-datastore), then unmarshal each value. -/
def GetLogs (s : DsState) (limit : Nat) : Except Err (List Action) :=
  decodeEntries (applyLimit limit (List.insertionSort entryGe s.auditstore.entries))

/-- `DatastoreBlocklist.AddLog`.  The result of `b.auditstore.Put(k, rawLi)`
is discarded by the source, so a failed write still ends in `.ok`. -/
def AddLog (s : DsState) (act : Action) : DsState × Except Err Unit :=
  if act.Typ ≠ "block" ∧ act.Typ ≠ "unblock" then
    (s, .error (.invalidActionType act.Typ))
  else
    let put := s.putAudit act.CreatedAt act.MarshalBinary
    (put.1, .ok ())

end DatastoreBlocklist

/-- A row of the configured blocklist table (`PgBlocklistItem`).  `gorm.Model`
supplies a primary key and the soft-delete marker; rows are kept in
primary-key (insertion) order and `deleted` models `DeletedAt` being set. -/
structure PgRow where
  Hash : CidString
  Content : String
  Reason : String
  User : String
  deleted : Bool
deriving DecidableEq

/-- The semicolon-joined `ids` column of a `PgLogItem` row, modelled by its
list of split segments: CID renders never contain `';'`, so `strings.Join`
followed by `strings.Split` on `";"` is the identity on the segments, except
that joining the empty list gives `""`, which splits back to `[""]` (see
`joinIds`).  A segment that is not a CID render is a `CidString.garbage`
value. -/
def RawIdsCol : Type := List CidString

instance : DecidableEq RawIdsCol := inferInstanceAs (DecidableEq (List CidString))

/-- `strings.Join rawIds ";"` viewed through the column model: joining no
segments produces the empty string, whose later split is `[""]`. -/
def joinIds (rendered : List CidString) : RawIdsCol :=
  if rendered = [] then [.garbage ""] else rendered

/-- A row of the fixed `auditlog` table (`PgLogItem`). -/
structure PgLogRow where
  Typ : String
  RawIds : RawIdsCol
  Reason : String
  User : String
  CreatedAt : Nat
deriving DecidableEq

/-- State of the `PgBlocklist` backend: the rows of the configured blocklist
table and of the `auditlog` table.  `broken` models a relational store whose
writes (`Create`, `Delete`) fail. -/
structure PgDB where
  blocklist : List PgRow
  auditlog : List PgLogRow
  broken : Bool
deriving DecidableEq

namespace PgBlocklist

/-- The rows a `Where(&PgBlocklistItem\x7bHash: h\x7d)` filter selects: exact
match on the hash column, under gorm's default scope, which excludes
soft-deleted rows.  (The hash of a defined CID is never the empty string, so
the gorm zero-value caveat does not arise.) -/
def matchingRows (db : PgDB) (h : CidString) : List PgRow :=
  db.blocklist.filter (fun r => !r.deleted && r.Hash == h)

/-- The normalization inlined in `PgBlocklist.Contains`: "converting cidv0 to
cidv1, as all CID are inserted as cidv1 in the compliance database". -/
def normalizeV1String (id : Cid) : Except Err CidString :=
  if id.version = 0 then
    match mhFromB58String id.string with
    | .error e => .error e
    | .ok hash => .ok (newCidV1 dagProtobuf hash).string
  else .ok id.string

/-- `PgBlocklist.Contains`: count the rows matching the normalized hash and
compare with zero. -/
def Contains (db : PgDB) (id : Cid) : Except Err Bool :=
  match normalizeV1String id with
  | .error e => .error e
  | .ok cidv1 => .ok (decide (0 < (matchingRows db cidv1).length))

/-- `PgBlocklist.Block`.  The inserted row's hash is the raw `id.String()`
(not the normalized string used by `Contains`). -/
def Block (db : PgDB) (id : Cid) (data : BlockData) :
    PgDB × Except Err Bool :=
  let blockitem : PgRow :=
    { Hash := id.string, Content := goJoin "\n" data.Content,
      Reason := data.Reason, User := data.User, deleted := false }
  match Contains db id with
  | .error e => (db, .error e)
  | .ok true => (db, .ok true)
  | .ok false =>
    if db.broken then (db, .error .storeFailure)
    else ({ db with blocklist := db.blocklist ++ [blockitem] }, .ok false)

/-- `PgBlocklist.Search`: `First` on the rows matching the raw `id.String()`
(no normalization), returning gorm's record-not-found error when no row
matches; `First` picks the earliest match in primary-key order. -/
def Search (db : PgDB) (id : Cid) : Except Err BlocklistItem :=
  match (matchingRows db id.string).head? with
  | none => .error .gormNotFound
  | some out =>
    .ok { Content := goSplit out.Content '\n', Hash := out.Hash,
          Reason := out.Reason, User := out.User }

/-- `PgBlocklist.Unblock`: `Search`, then `client.Unscoped().Delete(res)`.
`res` is the `*BlocklistItem` assembled by `Search` — a struct with no primary
key (gorm v2 builds a delete's conditions only from the model's primary key),
a `Content []string` field gorm has no column mapping for, and an inferred
table name (`blocklist_items`) that is not the configured blocklist table.
The delete therefore fails (blocked global delete / schema error) having
removed nothing, and `Unblock` propagates that error:
`result.Error != nil` at part_000:136. -/
def Unblock (db : PgDB) (id : Cid) : PgDB × Except Err Unit :=
  match Search db id with
  | .error e => (db, .error e)
  | .ok _ => (db, .error .gormDeleteFailure)

/-- The `Order("created_at DESC, typ")` ordering of `PgBlocklist.GetLogs`:
later creation time first, ties broken by ascending action type. -/
def logGe (a b : PgLogRow) : Prop :=
  b.CreatedAt < a.CreatedAt ∨ (a.CreatedAt = b.CreatedAt ∧ a.Typ ≤ b.Typ)

instance : DecidableRel logGe := fun a b =>
  inferInstanceAs
    (Decidable (b.CreatedAt < a.CreatedAt ∨
      (a.CreatedAt = b.CreatedAt ∧ a.Typ ≤ b.Typ)))

instance : IsTotal PgLogRow logGe := by
  constructor
  intro a b
  rcases Nat.lt_trichotomy a.CreatedAt b.CreatedAt with h | h | h
  · exact Or.inr (Or.inl h)
  · rcases le_total a.Typ b.Typ with ht | ht
    · exact Or.inl (Or.inr ⟨h, ht⟩)
    · exact Or.inr (Or.inr ⟨h.symm, ht⟩)
  · exact Or.inl (Or.inl h)

instance : IsTrans PgLogRow logGe := by
  constructor
  intro a b c hab hbc
  rcases hab with hab | ⟨hab, habT⟩ <;> rcases hbc with hbc | ⟨hbc, hbcT⟩
  · exact Or.inl (Nat.lt_trans hbc hab)
  · exact Or.inl (hbc ▸ hab)
  · exact Or.inl (hab ▸ hbc)
  · exact Or.inr ⟨hab.trans hbc, habT.trans hbcT⟩

/-- The per-row id loop of `PgBlocklist.GetLogs`:
`ids := make([]cid.Cid, 0, len(rawIds))` followed by `ids[i] = id` — each
parsed CID is written by index into the zero-length slice. -/
def parseIds : RawIdsCol → Nat → List Cid → Except Err (List Cid)
  | [], _, ids => .ok ids
  | r :: rest, i, ids =>
    match cidParse r with
    | .error e => .error e
    | .ok id =>
      match setIdx ids i id with
      | none => .error .panicOutOfRange
      | some ids' => parseIds rest (i + 1) ids'

/-- One iteration of the row loop of `PgBlocklist.GetLogs`. -/
def rowToAction (row : PgLogRow) : Except Err Action :=
  match parseIds row.RawIds 0 [] with
  | .error e => .error e
  | .ok ids =>
    .ok { Typ := row.Typ, Ids := ids, Reason := row.Reason,
          User := row.User, CreatedAt := row.CreatedAt }

/-- The row loop of `PgBlocklist.GetLogs`, stopping at the first failure. -/
def rowsToActions : List PgLogRow → Except Err (List Action)
  | [] => .ok []
  | row :: rest =>
    match rowToAction row with
    | .error e => .error e
    | .ok a =>
      match rowsToActions rest with
      | .error e => .error e
      | .ok as => .ok (a :: as)

/-- `PgBlocklist.GetLogs`: select from `auditlog` ordered by
`created_at DESC, typ` with the limit (`applyLimit`: `Limit(0)` emits no
LIMIT clause in this gorm release), then rebuild each `Action`. -/
def GetLogs (db : PgDB) (limit : Nat) : Except Err (List Action) :=
  rowsToActions (applyLimit limit (List.insertionSort logGe db.auditlog))

/-- The id-rendering loop of `PgBlocklist.AddLog`:
`rawIds := make([]string, 0, len(act.Ids))` followed by
`rawIds[i] = id.String()` — each render is written by index into the
zero-length slice. -/
def fillRawIds : List Cid → Nat → List CidString → Option (List CidString)
  | [], _, acc => some acc
  | id :: rest, i, acc =>
    match setIdx acc i id.string with
    | none => none
    | some acc' => fillRawIds rest (i + 1) acc'

/-- `PgBlocklist.AddLog`.  gorm's `Create` fills the row's `CreatedAt` with
the insertion instant, passed here explicitly as `now`. -/
def AddLog (db : PgDB) (act : Action) (now : Nat) : PgDB × Except Err Unit :=
  if act.Typ ≠ "block" ∧ act.Typ ≠ "unblock" then
    (db, .error (.invalidActionType act.Typ))
  else
    match fillRawIds act.Ids 0 [] with
    | none => (db, .error .panicOutOfRange)
    | some rawIds =>
      if db.broken then (db, .error .storeFailure)
      else
        ({ db with auditlog := db.auditlog ++
            [{ Typ := act.Typ, RawIds := joinIds rawIds, Reason := act.Reason,
               User := act.User, CreatedAt := now }] }, .ok ())

end PgBlocklist

/-! Concrete fixtures used by the counterexample and witness theorems. -/

/-- A legacy (version-0) CID over multihash 7. -/
def cidA : Cid := { version := 0, codec := dagProtobuf, hash := 7 }

/-- The current (version-1) CID over the same multihash 7. -/
def cidB : Cid := { version := 1, codec := dagProtobuf, hash := 7 }

def dataU : BlockData :=
  { Blocked := [], Content := ["http://example.com/x"],
    Reason := "DMCA", User := "alice@example.com" }

def dataV : BlockData :=
  { Blocked := [], Content := ["http://example.com/y"],
    Reason := "spam", User := "bob@example.com" }

def pgEmpty : PgDB := { blocklist := [], auditlog := [], broken := false }

def pgBroken : PgDB := { blocklist := [], auditlog := [], broken := true }

def dsEmpty : DsState :=
  { datastore := { entries := [] }, auditstore := { entries := [] },
    safemodestore := { entries := [] }, broken := false }

def dsBroken : DsState :=
  { datastore := { entries := [] }, auditstore := { entries := [] },
    safemodestore := { entries := [] }, broken := true }

def actOneId : Action :=
  { Typ := "block", Ids := [cidB], Reason := "spam",
    User := "bob@example.com", CreatedAt := 4 }

def actNoIds : Action :=
  { Typ := "unblock", Ids := [], Reason := "appeal",
    User := "carol@example.com", CreatedAt := 6 }

def actDelete : Action :=
  { Typ := "delete", Ids := [cidB], Reason := "r", User := "u", CreatedAt := 5 }

/-- A relational state with one audit row whose ids column holds one valid
version-1 CID render. -/
def dbOneLog : PgDB :=
  { blocklist := [],
    auditlog := [{ Typ := "block", RawIds := [CidString.v1 dagProtobuf 7],
                   Reason := "r", User := "u", CreatedAt := 9 }],
    broken := false }

/-- C1: `PgBlocklist.Block` inserts the raw `id.String()` instead of the
normalized cidv1 string that `Contains` looks up (contradicting the source's
own comment that "all CID are inserted as cidv1 in the compliance database"):
after a successful fresh `Block` of the legacy CID `cidA`, `Contains` of both
`cidA` and of the equivalent current CID `cidB` still returns `false` in the
relational backend, while the key-value backend recognises `cidB` as blocked
after blocking `cidA`, as the claim states. -/
theorem pgBlock_skips_normalization :
    (PgBlocklist.Block pgEmpty cidA dataU).2 = .ok false ∧
    PgBlocklist.Contains (PgBlocklist.Block pgEmpty cidA dataU).1 cidA = .ok false ∧
    PgBlocklist.Contains (PgBlocklist.Block pgEmpty cidA dataU).1 cidB = .ok false ∧
    DatastoreBlocklist.Contains (DatastoreBlocklist.Block dsEmpty cidA dataU).1 cidB = .ok true := by
  decide

/-- C2: blocking the legacy CID `cidA` twice in the relational backend creates
two rows — the second call also reports "not already present" (`.ok false`),
because `Contains` looks up the normalized string while `Block` stored the raw
v0 string.  (`Search` does return the first call's metadata, as the claim
states.) -/
theorem pgBlock_double_block_duplicates_legacy :
    (PgBlocklist.Block pgEmpty cidA dataU).2 = .ok false ∧
    (PgBlocklist.Block (PgBlocklist.Block pgEmpty cidA dataU).1 cidA dataV).2 = .ok false ∧
    (PgBlocklist.Block (PgBlocklist.Block pgEmpty cidA dataU).1 cidA dataV).1.blocklist.length = 2 ∧
    PgBlocklist.Search (PgBlocklist.Block (PgBlocklist.Block pgEmpty cidA dataU).1 cidA dataV).1 cidA =
      .ok { Hash := .v0 7, Content := ["http://example.com/x"],
            Reason := "DMCA", User := "alice@example.com" } := by
  decide

/-- C3: the id loops of the relational backend write through indices of slices
made with `make(..., 0, n)`, whose length is 0 — `PgBlocklist.AddLog` on any
action with a non-empty id list panics with an index-out-of-range, and
`PgBlocklist.GetLogs` panics on any stored log row whose first identifier
parses. -/
theorem pgAddLog_getLogs_index_out_of_range :
    PgBlocklist.AddLog pgEmpty actOneId 10 = (pgEmpty, .error .panicOutOfRange) ∧
    PgBlocklist.GetLogs dbOneLog 10 = .error .panicOutOfRange := by
  decide

/-- C4 counterexample: the two backends do not share one polarity.  On a CID
that is not yet blocked, `DatastoreBlocklist.Block` creates a new entry and
returns `true`, where the claim requires `false` for a newly created entry
(the relational backend returns `false` there). -/
theorem block_polarity_uniform_counterexample :
    DatastoreBlocklist.Contains dsEmpty cidB = .ok false ∧
    (DatastoreBlocklist.Block dsEmpty cidB dataU).2 = .ok true ∧
    DatastoreBlocklist.Contains (DatastoreBlocklist.Block dsEmpty cidB dataU).1 cidB = .ok true ∧
    (PgBlocklist.Block pgEmpty cidB dataU).2 = .ok false := by
  decide

/-- C5: `DatastoreBlocklist.AddLog` discards the result of
`b.auditstore.Put(k, rawLi)`: on a store whose writes fail, the put fails with
a store error, yet `AddLog` reports success.  (The relational backend does
surface its failed `Create`, shown by the last conjunct.) -/
theorem dsAddLog_ignores_put_failure :
    (dsBroken.putAudit actOneId.CreatedAt actOneId.MarshalBinary).2 = .error .storeFailure ∧
    DatastoreBlocklist.AddLog dsBroken actOneId = (dsBroken, .ok ()) ∧
    (PgBlocklist.AddLog pgBroken actNoIds 8).2 = .error .storeFailure := by
  decide

/-- C6: unblocking a CID with no blocklist entry does not fail with the
package's `ErrNotFound` in either backend: the relational backend propagates
gorm's record-not-found error from `First` (although `Search`'s own comment
promises `ErrNotFound`), and the key-value backend returns success, since a
datastore `Delete` of an absent key is not an error. -/
theorem unblock_missing_entry_error_mismatch :
    PgBlocklist.Unblock pgEmpty cidB = (pgEmpty, .error .gormNotFound) ∧
    Err.gormNotFound ≠ Err.errNotFound ∧
    DatastoreBlocklist.Unblock dsEmpty cidB = (dsEmpty, .ok ()) := by
  decide

/-- C7: in the relational backend the delete inside `Unblock` can never
succeed: `client.Unscoped().Delete(res)` is handed the `*BlocklistItem` built
by `Search`, which gives gorm no primary key to build the delete condition
from (and a `[]string` field outside gorm's schema, and an inferred table
that is not the configured one), so the call errors and removes nothing.
After a successful fresh `Block` of `cidB`, `Unblock(cidB)` returns that
error, the state is unchanged and `Contains(cidB)` is still `true` — the
"successful Unblock" the claim quantifies over never occurs in this backend.
The key-value backend satisfies the claim at the same input: after block and
unblock, `Contains` is `false` and a re-block creates a fresh entry. -/
theorem pg_unblock_delete_never_removes :
    (PgBlocklist.Block pgEmpty cidB dataU).2 = .ok false ∧
    (PgBlocklist.Unblock (PgBlocklist.Block pgEmpty cidB dataU).1 cidB).2 =
      .error .gormDeleteFailure ∧
    (PgBlocklist.Unblock (PgBlocklist.Block pgEmpty cidB dataU).1 cidB).1 =
      (PgBlocklist.Block pgEmpty cidB dataU).1 ∧
    PgBlocklist.Contains
      (PgBlocklist.Unblock (PgBlocklist.Block pgEmpty cidB dataU).1 cidB).1 cidB = .ok true ∧
    (DatastoreBlocklist.Unblock (DatastoreBlocklist.Block dsEmpty cidB dataU).1 cidB).2 = .ok () ∧
    DatastoreBlocklist.Contains
      (DatastoreBlocklist.Unblock (DatastoreBlocklist.Block dsEmpty cidB dataU).1 cidB).1 cidB = .ok false ∧
    (DatastoreBlocklist.Block
      (DatastoreBlocklist.Unblock (DatastoreBlocklist.Block dsEmpty cidB dataU).1 cidB).1
      cidB dataV).2 = .ok true := by
  decide

/-- C4 (amended): each backend applies its own polarity consistently.  The
relational backend's `Block` returns `.ok true` exactly when an entry for `id`
already exists, and then performs no mutation; the key-value backend returns
the opposite polarity — `.ok false` exactly when an entry already exists (no
mutation then), `.ok true` on fresh creation. -/
theorem block_polarity_per_backend
    (db : PgDB) (s : DsState) (id : Cid) (d : BlockData) :
    ((PgBlocklist.Block db id d).2 = .ok true ↔
      PgBlocklist.Contains db id = .ok true) ∧
    (PgBlocklist.Contains db id = .ok true → (PgBlocklist.Block db id d).1 = db) ∧
    ((DatastoreBlocklist.Block s id d).2 = .ok false ↔
      DatastoreBlocklist.Contains s id = .ok true) ∧
    (DatastoreBlocklist.Contains s id = .ok true →
      (DatastoreBlocklist.Block s id d).1 = s) := by
  refine ⟨?_, ?_, ?_, ?_⟩
  · cases hc : PgBlocklist.Contains db id with
    | error e => simp [PgBlocklist.Block, hc]
    | ok b =>
      cases b with
      | true => simp [PgBlocklist.Block, hc]
      | false => by_cases hb : db.broken <;> simp [PgBlocklist.Block, hc, hb]
  · intro hc
    simp [PgBlocklist.Block, hc]
  · cases hk : DatastoreBlocklist.cidToKey id with
    | error e =>
      simp [DatastoreBlocklist.Block, DatastoreBlocklist.Contains, hk]
    | ok k =>
      cases hh : s.safemodestore.has k with
      | true =>
        simp [DatastoreBlocklist.Block, DatastoreBlocklist.Contains, hk, hh]
      | false =>
        by_cases hb : s.broken <;>
          simp [DatastoreBlocklist.Block, DatastoreBlocklist.Contains, hk, hh,
            DsState.putSafemode, hb]
  · intro hc
    cases hk : DatastoreBlocklist.cidToKey id with
    | error e => simp [DatastoreBlocklist.Contains, hk] at hc
    | ok k =>
      simp [DatastoreBlocklist.Contains, hk] at hc
      simp [DatastoreBlocklist.Block, DatastoreBlocklist.Contains, hk, hc]

/-- C9: an action whose type is neither "block" nor "unblock" is rejected by
`AddLog` with the invalid-action-type error in both backends, and the audit
log is untouched: the returned state is the input state, so the log count
after the failed call equals the count before it. -/
theorem addLog_invalid_type_rejected_unchanged
    (db : PgDB) (s : DsState) (act : Action) (now : Nat)
    (h1 : act.Typ ≠ "block") (h2 : act.Typ ≠ "unblock") :
    PgBlocklist.AddLog db act now = (db, .error (.invalidActionType act.Typ)) ∧
    (PgBlocklist.AddLog db act now).1.auditlog.length = db.auditlog.length ∧
    DatastoreBlocklist.AddLog s act = (s, .error (.invalidActionType act.Typ)) ∧
    (DatastoreBlocklist.AddLog s act).1.auditstore.entries.length =
      s.auditstore.entries.length := by
  have hpg : PgBlocklist.AddLog db act now =
      (db, .error (.invalidActionType act.Typ)) := by
    unfold PgBlocklist.AddLog
    rw [if_pos ⟨h1, h2⟩]
  have hds : DatastoreBlocklist.AddLog s act =
      (s, .error (.invalidActionType act.Typ)) := by
    unfold DatastoreBlocklist.AddLog
    rw [if_pos ⟨h1, h2⟩]
  exact ⟨hpg, by rw [hpg], hds, by rw [hds]⟩

/-- Witness for C9 at the concrete action with type "delete". -/
theorem addLog_invalid_type_rejected_unchanged_witness :
    PgBlocklist.AddLog pgEmpty actDelete 3 =
      (pgEmpty, .error (.invalidActionType actDelete.Typ)) ∧
    (PgBlocklist.AddLog pgEmpty actDelete 3).1.auditlog.length =
      pgEmpty.auditlog.length ∧
    DatastoreBlocklist.AddLog dsEmpty actDelete =
      (dsEmpty, .error (.invalidActionType actDelete.Typ)) ∧
    (DatastoreBlocklist.AddLog dsEmpty actDelete).1.auditstore.entries.length =
      dsEmpty.auditstore.entries.length :=
  addLog_invalid_type_rejected_unchanged pgEmpty dsEmpty actDelete 3
    (by decide) (by decide)

/-- C10: decoding the canonical encoding reproduces the original value field
for field, for both `BlocklistItem` and `Action`. -/
theorem marshal_unmarshal_roundtrip (b : BlocklistItem) (a : Action) :
    BlocklistItem.UnmarshalBinary b.MarshalBinary = .ok b ∧
    Action.UnmarshalBinary a.MarshalBinary = .ok a :=
  ⟨rfl, rfl⟩

/-- Key/value agreement for one stored audit entry: the value unmarshals to an
action whose `CreatedAt` is what the entry's key renders. -/
def keyMatches (p : Nat × Json) : Bool :=
  match Action.UnmarshalBinary p.2 with
  | .ok a => a.CreatedAt == p.1
  | .error _ => false

/-- Well-formedness of the audit namespace: every entry has the shape
`DatastoreBlocklist.AddLog` — the only writer of this namespace — produces,
keyed by the rendered `CreatedAt` of its value. -/
def auditWF (s : KV Nat Json) : Prop :=
  ∀ p ∈ s.entries, keyMatches p = true

instance (s : KV Nat Json) : Decidable (auditWF s) :=
  inferInstanceAs (Decidable (∀ p ∈ s.entries, keyMatches p = true))

theorem rowToAction_createdAt (row : PgLogRow) (a : Action)
    (h : PgBlocklist.rowToAction row = .ok a) : a.CreatedAt = row.CreatedAt := by
  unfold PgBlocklist.rowToAction at h
  cases hp : PgBlocklist.parseIds row.RawIds 0 [] with
  | error e => rw [hp] at h; exact absurd h (by simp)
  | ok ids =>
    rw [hp] at h
    injection h with h
    rw [← h]

theorem rowsToActions_map_createdAt (rows : List PgLogRow) :
    ∀ as, PgBlocklist.rowsToActions rows = .ok as →
      as.map Action.CreatedAt = rows.map PgLogRow.CreatedAt := by
  induction rows with
  | nil =>
    intro as h
    unfold PgBlocklist.rowsToActions at h
    injection h with h
    rw [← h]
    rfl
  | cons row rest ih =>
    intro as h
    unfold PgBlocklist.rowsToActions at h
    cases hr : PgBlocklist.rowToAction row with
    | error e => rw [hr] at h; exact absurd h (by simp)
    | ok a =>
      rw [hr] at h
      cases hrest : PgBlocklist.rowsToActions rest with
      | error e => rw [hrest] at h; exact absurd h (by simp)
      | ok as' =>
        rw [hrest] at h
        injection h with h
        rw [← h]
        simp [rowToAction_createdAt row a hr, ih as' hrest]

theorem decodeEntries_map_createdAt (es : List (Nat × Json)) :
    ∀ as, (∀ p ∈ es, keyMatches p = true) →
      DatastoreBlocklist.decodeEntries es = .ok as →
      as.map Action.CreatedAt = es.map Prod.fst := by
  induction es with
  | nil =>
    intro as _ h
    unfold DatastoreBlocklist.decodeEntries at h
    injection h with h
    rw [← h]
    rfl
  | cons p rest ih =>
    obtain ⟨k, v⟩ := p
    intro as hwf h
    have hk : keyMatches (k, v) = true := hwf (k, v) (by simp)
    unfold DatastoreBlocklist.decodeEntries at h
    unfold keyMatches at hk
    cases hu : Action.UnmarshalBinary v with
    | error e => rw [hu] at hk; exact absurd hk (by simp)
    | ok a =>
      rw [hu] at h hk
      have hak : a.CreatedAt = k := by simpa using hk
      cases hrest : DatastoreBlocklist.decodeEntries rest with
      | error e => rw [hrest] at h; exact absurd h (by simp)
      | ok as' =>
        rw [hrest] at h
        injection h with h
        rw [← h]
        have hre : ∀ q ∈ rest, keyMatches q = true :=
          fun q hq => hwf q (by simp [hq])
        simp [hak, ih as' hre hrest]

theorem applyLimit_sublist (n : Nat) (l : List α) :
    List.Sublist (applyLimit n l) l := by
  unfold applyLimit
  by_cases h : n = 0
  · rw [if_pos h]
  · rw [if_neg h]
    exact List.take_sublist n l

theorem applyLimit_subset (n : Nat) (l : List α) : applyLimit n l ⊆ l :=
  (applyLimit_sublist n l).subset

theorem applyLimit_length_le (n : Nat) (l : List α) (h : 0 < n) :
    (applyLimit n l).length ≤ n := by
  unfold applyLimit
  rw [if_neg h.ne']
  exact List.length_take_le n l

/-- C8 (amended): a successful `GetLogs` returns its actions in non-increasing
order of creation time in both backends, and at most `n` of them whenever the
limit `n` is positive — a limit of 0 means "no limit" in both underlying
stores, so `GetLogs 0` can return everything.  The relational query orders by
`created_at DESC`; the key-value query reads the audit namespace in
descending key order, and the keys of a well-formed audit namespace
(`auditWF`: only ever written by `AddLog`) render the `CreatedAt` of their
values. -/
theorem getLogs_created_at_antitone_and_le_of_pos
    (db : PgDB) (s : DsState) (n : Nat) (pacts dacts : List Action)
    (hpg : PgBlocklist.GetLogs db n = .ok pacts)
    (hwf : auditWF s.auditstore)
    (hds : DatastoreBlocklist.GetLogs s n = .ok dacts) :
    (pacts.Pairwise (fun a b => b.CreatedAt ≤ a.CreatedAt) ∧
      (0 < n → pacts.length ≤ n)) ∧
    (dacts.Pairwise (fun a b => b.CreatedAt ≤ a.CreatedAt) ∧
      (0 < n → dacts.length ≤ n)) := by
  constructor
  · unfold PgBlocklist.GetLogs at hpg
    have hmap := rowsToActions_map_createdAt _ _ hpg
    have hlen : pacts.length =
        (applyLimit n (List.insertionSort PgBlocklist.logGe db.auditlog)).length := by
      have hl := congrArg List.length hmap
      simpa using hl
    have hs0 : List.Pairwise PgBlocklist.logGe
        (List.insertionSort PgBlocklist.logGe db.auditlog) :=
      List.sorted_insertionSort PgBlocklist.logGe db.auditlog
    have hsorted := hs0.sublist (applyLimit_sublist n _)
    have hle : (applyLimit n (List.insertionSort PgBlocklist.logGe db.auditlog)).Pairwise
        (fun a b : PgLogRow => b.CreatedAt ≤ a.CreatedAt) :=
      hsorted.imp (fun hab =>
        hab.elim Nat.le_of_lt (fun h2 => Nat.le_of_eq h2.1.symm))
    have hm3 : (pacts.map Action.CreatedAt).Pairwise (fun x y : Nat => y ≤ x) := by
      rw [hmap]
      exact List.pairwise_map.mpr hle
    refine ⟨List.pairwise_map.mp hm3, ?_⟩
    intro hn
    rw [hlen]
    exact applyLimit_length_le n _ hn
  · unfold DatastoreBlocklist.GetLogs at hds
    have hwf' : ∀ p ∈ applyLimit n (List.insertionSort DatastoreBlocklist.entryGe
        s.auditstore.entries), keyMatches p = true := by
      intro p hp
      exact hwf p ((List.perm_insertionSort _ _).subset (applyLimit_subset _ _ hp))
    have hmap := decodeEntries_map_createdAt _ _ hwf' hds
    have hlen : dacts.length =
        (applyLimit n (List.insertionSort DatastoreBlocklist.entryGe
          s.auditstore.entries)).length := by
      have hl := congrArg List.length hmap
      simpa using hl
    have hs0 : List.Pairwise DatastoreBlocklist.entryGe
        (List.insertionSort DatastoreBlocklist.entryGe s.auditstore.entries) :=
      List.sorted_insertionSort DatastoreBlocklist.entryGe s.auditstore.entries
    have hsorted := hs0.sublist (applyLimit_sublist n _)
    have hm3 : (dacts.map Action.CreatedAt).Pairwise (fun x y : Nat => y ≤ x) := by
      rw [hmap]
      exact List.pairwise_map.mpr (hsorted.imp (fun hab => hab))
    refine ⟨List.pairwise_map.mp hm3, ?_⟩
    intro hn
    rw [hlen]
    exact applyLimit_length_le n _ hn

def act3 : Action :=
  { Typ := "block", Ids := [cidB], Reason := "a", User := "u", CreatedAt := 3 }

def act5 : Action :=
  { Typ := "unblock", Ids := [cidB], Reason := "b", User := "u", CreatedAt := 5 }

/-- A key-value state whose audit namespace holds two entries as written by
`AddLog`. -/
def dsTwoLogs : DsState :=
  { datastore := { entries := [] },
    auditstore := { entries := [(3, act3.MarshalBinary), (5, act5.MarshalBinary)] },
    safemodestore := { entries := [] }, broken := false }

/-- Witness for C8 at concrete states: the empty relational log and a
two-entry audit namespace, with limit 2. -/
theorem getLogs_created_at_antitone_and_le_of_pos_witness :
    (([] : List Action).Pairwise (fun a b => b.CreatedAt ≤ a.CreatedAt) ∧
      (0 < 2 → ([] : List Action).length ≤ 2)) ∧
    ([act5, act3].Pairwise (fun a b => b.CreatedAt ≤ a.CreatedAt) ∧
      (0 < 2 → [act5, act3].length ≤ 2)) :=
  getLogs_created_at_antitone_and_le_of_pos pgEmpty dsTwoLogs 2 [] [act5, act3]
    (by decide) (by decide) (by decide)

/-- C8 counterexample: a limit of 0 does not cap the result.  go-datastore
treats a zero query limit as "no limit" (and the era's gorm emits no LIMIT
clause for a zero limit), so a successful `GetLogs 0` on a two-entry audit
namespace returns both actions — not at most zero, as the claim's "every
non-negative limit n" requires at n = 0. -/
theorem getLogs_zero_limit_counterexample :
    DatastoreBlocklist.GetLogs dsTwoLogs 0 = .ok [act5, act3] ∧
    ¬ ([act5, act3] : List Action).length ≤ 0 := by
  decide

end Blocklist
